import Mathlib

/-!
Verification of the streaming CSV export core of `csv_exp.py`: the binary
column rewriter (`transform_row_binary`), content sniffing
(`detectFileExtension`), binary column detection (`binaryColumnIdxs`), the
export loop of `exp_sql` (header emission, blob writes, NULL substitution,
batched CSV output) and the throughput summary.

External libraries the source calls (hashlib.sha256, python-magic,
mimetypes.guess_extension) are modelled as function parameters bundled in
`ExtLibs`; Python values appearing in result cells are modelled by the
inductive `Cell`; the filesystem seen by the blob writer is an association
list from paths to byte contents.
-/

namespace CsvExp

/-- Driver-level column type constants (`cx_Oracle.BINARY`, ...).  The export
core only distinguishes the three binary constants
(`BINARY`, `LONG_BINARY`, `BLOB`) from everything else; some non-binary
constants are included so descriptors of ordinary columns can be written. -/
inductive DriverType where
  | BINARY
  | LONG_BINARY
  | BLOB
  | CLOB
  | LONG_STRING
  | STRING
  | NUMBER
  | DATETIME
  deriving DecidableEq, Repr

/-- One entry of `cur.description`: the column name (`x[0]`) and the driver
type constant (`x[1]`). -/
structure ColDesc where
  name : String
  driver_type : DriverType
  deriving DecidableEq, Repr

/-- A Python value held in one result cell, as the export core distinguishes
them: the NULL sentinel `None`, a string, a `bytes` payload (RAW / LONG RAW
fetches), or a LOB handle whose `.read()` materializes the given bytes. -/
inductive Cell where
  | none
  | str (s : String)
  | bytes (b : List Nat)
  | lob (b : List Nat)
  deriving DecidableEq, Repr

/-- A fetched row: one cell per column, in descriptor order. -/
abbrev Row := List Cell

/-- The `binary_by_filename` dict: insertion-ordered mapping
filename -> bytes, with Python dict update semantics. -/
abbrev BlobDict := List (String × List Nat)

/-- The external libraries `csv_exp.py` imports, as abstract functions:
`hashlib.sha256(...).hexdigest()`, `magic.from_buffer(..., mime=True)` (an
empty string models a falsy no-detection result) and
`mimetypes.guess_extension` (an empty string models `None`, no known
mapping). -/
structure ExtLibs where
  sha256hex : List Nat → String
  magicFromBuffer : List Nat → String
  guessExtension : String → String

/-- `x ∈ [cx_Oracle.LONG_BINARY, cx_Oracle.BINARY, cx_Oracle.BLOB]`
(line 323 of the source). -/
def isBinaryDriver (t : DriverType) : Bool :=
  t ∈ [DriverType.LONG_BINARY, DriverType.BINARY, DriverType.BLOB]

/-- The `for i, x in enumerate(cx_description): ... binary_cols.append(i)`
loop of `binaryColumnIdxs`, rendered recursively with the running index `i`:
appending the indices in enumeration order produces the same list as consing
the current index onto the indices collected from the tail. -/
def binaryColsAux (i : Nat) : List ColDesc → List Nat
  | [] => []
  | x :: xs =>
      if isBinaryDriver x.driver_type then i :: binaryColsAux (i + 1) xs
      else binaryColsAux (i + 1) xs

/-- `binaryColumnIdxs(cx_description, rows)` (source lines 309-326).  The
`rows` parameter is accepted but never used by the body.  Lines 317-321 of
the source (`db_binary_type = None; ... if db_binary_type in
driver_binary_types: ...`) are dead code: `db_binary_type` is `None`, which
is never among the dict keys, and the variable is not used afterwards; the
dead lines are therefore not part of the embedding. -/
def binaryColumnIdxs (cx_description : List ColDesc) (_rows : List Row) : List Nat :=
  binaryColsAux 0 cx_description

/-- Helper for `pySplit`: the characters read so far of the current part are
accumulated in reverse. -/
def pySplitAux (sep : Char) : List Char → List Char → List (List Char)
  | [], cur => [cur.reverse]
  | c :: cs, cur =>
      if c = sep then cur.reverse :: pySplitAux sep cs []
      else pySplitAux sep cs (c :: cur)

/-- Python `s.split(sep)` for a one-character separator: every maximal
separator-free run becomes one part, empty parts are kept. -/
def pySplit (sep : Char) (s : String) : List String :=
  (pySplitAux sep s.data []).map String.mk

/-- `detectFileExtension(byts)` (source lines 296-307): sniff a MIME type
from the bytes; if falsy return the empty string; otherwise map it through
`mimetypes.guess_extension`, falling back to a dot followed by the last
`/`-separated component of the MIME string (`mime_data.split('/').pop()`:
`pySplit` never returns an empty list, so `.pop()` is its last element). -/
def detectFileExtension (ext : ExtLibs) (byts : List Nat) : String :=
  let mime_data := ext.magicFromBuffer byts
  if mime_data = "" then ""
  else
    let extension := ext.guessExtension mime_data
    if extension = "" then "." ++ ((pySplit '/' mime_data).getLastD "")
    else extension

/-- The `objOrBytes` -> `data` step (source lines 262-268): a LOB handle has
a callable `.read` and is materialized to its bytes; `bytes` pass through;
`None` stays the Python `None` (modelled `Option.none`); a string would pass
through as its UTF-8 bytes (a case the driver does not produce in binary
columns). -/
def cellData : Cell → Option (List Nat)
  | Cell.none => Option.none
  | Cell.str s => Option.some ((String.toUTF8 s).toList.map (fun u => u.toNat))
  | Cell.bytes b => Option.some b
  | Cell.lob b => Option.some b

/-- Python truthiness of `data` in `if not data:` (source line 270): `None`
and empty bytes are falsy. -/
def dataFalsy : Option (List Nat) → Bool
  | Option.none => true
  | Option.some [] => true
  | Option.some (_ :: _) => false

/-- `binary_by_filename[filename] = data`: Python dict item assignment.  An
existing key keeps its position and gets the new value; a new key is
appended. -/
def dictInsert (d : BlobDict) (k : String) (v : List Nat) : BlobDict :=
  if d.any (fun p => p.1 = k) then
    d.map (fun p => if p.1 = k then (k, v) else p)
  else d ++ [(k, v)]

/-- Python tuple indexing `row[col]`, total here: out-of-range reads give
the `None` sentinel (the export invariant keeps `col` within the row, so
the default is never observed on well-formed batches). -/
def cellAt (row : Row) (col : Nat) : Cell :=
  row.getD col Cell.none

/-- One iteration of the inner `for col in binary_cols:` loop of
`transform_row_binary` (source lines 260-291), acting on the state
`(rows[ri], binary_by_filename, stderr warnings)`.

`row` is the Python loop variable bound by `for ri, row in enumerate(rows)`:
it stays the ORIGINAL row tuple for the whole inner loop, so both the read
`objOrBytes = row[col]` and the rebuild `l = list(row)` use the original
row, not the partially rewritten `rows[ri]` (which this step replaces
wholesale, discarding any earlier column's rewrite).  The stderr print on an
empty payload is modelled as an appended warning string; the message
interpolates `col` twice because the source format string uses `{0}` for
both fields. -/
def transformColsStep (ext : ExtLibs) (binary_rel_path : String) (row : Row)
    (acc : Row × BlobDict × List String) (col : Nat) : Row × BlobDict × List String :=
  let dict := acc.2.1
  let warns := acc.2.2
  let objOrBytes := cellAt row col
  let data := cellData objOrBytes
  if dataFalsy data then
    (row.set col (Cell.str ""), dict,
      warns ++ ["binary data is empty, skipping column " ++ toString col
                  ++ " in row: " ++ toString col])
  else
    let d := data.getD []
    let extension := detectFileExtension ext d
    let hash := ext.sha256hex d
    let filename := if extension ≠ "" then hash ++ extension else hash
    (row.set col (Cell.str ("file://" ++ binary_rel_path ++ "/" ++ filename)),
      dictInsert dict filename d, warns)

/-- `transform_row_binary(cx_description, binary_rel_path, rows)` (source
lines 251-293).  Returns the rewritten rows, the batch's
`binary_by_filename` dict, and the stderr warnings (the source prints them;
they are returned here so they can be reasoned about).  With no binary
columns the input list itself is returned with an empty dict (the source's
early return). -/
def transform_row_binary (ext : ExtLibs) (cx_description : List ColDesc)
    (binary_rel_path : String) (rows : List Row) : List Row × BlobDict × List String :=
  let binary_cols := binaryColumnIdxs cx_description rows
  if binary_cols = [] then (rows, [], [])
  else
    rows.foldl (fun acc row =>
      let res := binary_cols.foldl (transformColsStep ext binary_rel_path row)
        (row, acc.2.1, acc.2.2)
      (acc.1 ++ [res.1], res.2.1, res.2.2)) ([], [], [])

/-- The export configuration read by `exp_sql` from the module globals:
`NULL_AS` (default `None`), `OUTPUT_HEADER` (default `True`) and `LINETERM`
(default a newline). -/
structure Config where
  NULL_AS : Option String
  OUTPUT_HEADER : Bool
  LINETERM : String

/-- Python truthiness of an optional string setting (`if NULL_AS:`,
`if binary_path and ...`): `None` and the empty string are falsy. -/
def truthyOptStr : Option String → Bool
  | Option.none => false
  | Option.some s => !(s = "")

/-- The per-row body of the NULL substitution (source lines 230-236): if the
row contains the sentinel, rebuild it with every `None` cell replaced by the
configured text, otherwise keep the row object. -/
def nullSubstRow (null_as : String) (row : Row) : Row :=
  if Cell.none ∈ row then
    row.map (fun c => if c = Cell.none then Cell.str null_as else c)
  else row

/-- The NULL substitution step of `exp_sql` (source lines 229-236): run only
when `NULL_AS` is truthy. -/
def nullSubstRows (cfg : Config) (rows : List Row) : List Row :=
  if truthyOptStr cfg.NULL_AS then
    rows.map (nullSubstRow (cfg.NULL_AS.getD ""))
  else rows

/-- Double every `"` character, as the csv module's `doublequote=True`
escaping does inside a quoted field. -/
def csvEscapeChars : List Char → List Char
  | [] => []
  | c :: cs => if c = '"' then '"' :: '"' :: csvEscapeChars cs else c :: csvEscapeChars cs

/-- One serialized field under the `unix` dialect (`QUOTE_ALL`): the field
text wrapped in double quotes with embedded quotes doubled. -/
def csvQuote (s : String) : String :=
  "\"" ++ String.mk (csvEscapeChars s.data) ++ "\""

/-- Python repr of one byte inside a `bytes` literal (used by `str()` on a
bytes object when a cell reaches the csv writer untransformed): printable
ASCII stays itself, tab / newline / return / quote / backslash are escaped,
everything else becomes a hex escape. -/
def pyByteChar (n : Nat) : String :=
  let hexDigits := "0123456789abcdef".data
  if n = 9 then "\x5ct"
  else if n = 10 then "\x5cn"
  else if n = 13 then "\x5cr"
  else if n = 39 then "\x5c\x27"
  else if n = 92 then "\x5c\x5c"
  else if 32 ≤ n ∧ n < 127 then String.mk [Char.ofNat n]
  else "\x5cx" ++ String.mk [hexDigits.getD (n / 16 % 16) '0', hexDigits.getD (n % 16) '0']

/-- `str()` of a `bytes` value, `b'...'`. -/
def pyBytesRepr (b : List Nat) : String :=
  "b\x27" ++ String.join (b.map pyByteChar) ++ "\x27"

/-- The text the csv module writes for one cell: `None` becomes the empty
string, strings pass through, a raw bytes value would be written through
`str()`, and a LOB handle would print its object repr (the memory address
in the real repr is abstracted to a fixed text, deterministic per run). -/
def cellToStr : Cell → String
  | Cell.none => ""
  | Cell.str s => s
  | Cell.bytes b => pyBytesRepr b
  | Cell.lob _ => "<cx_Oracle.LOB object>"

/-- Comma-join of serialized fields. -/
def csvJoinFields : List String → String
  | [] => ""
  | [f] => f
  | f :: fs => f ++ "," ++ csvJoinFields fs

/-- One CSV record: all fields quoted, comma separated, followed by the
configured line terminator. -/
def csvRowLine (lineterm : String) (fields : List String) : String :=
  csvJoinFields (fields.map csvQuote) ++ lineterm

/-- `csv_writer.writerows(rows)`: each row serialized in order. -/
def writeRowsCsv (cfg : Config) : List Row → String
  | [] => ""
  | r :: rs => csvRowLine cfg.LINETERM (r.map cellToStr) ++ writeRowsCsv cfg rs

/-- The per-batch row pipeline of the `exp_sql` loop, as far as the CSV data
stream is concerned (source lines 203-238): rewrite binary columns when both
binary paths are truthy, then substitute NULLs.  (The blob file writes are
side effects on the binary directory, not on the data stream.) -/
def processBatch (ext : ExtLibs) (cfg : Config) (cx_description : List ColDesc)
    (binary_path binary_rel_path : Option String) (rows : List Row) : List Row :=
  let rows2 :=
    if truthyOptStr binary_path && truthyOptStr binary_rel_path then
      (transform_row_binary ext cx_description (binary_rel_path.getD "") rows).1
    else rows
  nullSubstRows cfg rows2

/-- The `while len(rows) > 0:` fetch loop of `exp_sql` restricted to the CSV
data stream: the cursor is modelled as the full finite result list, and
`cur.fetchmany(K)` returns the next `K` rows (a fetch size of `0` yields no
rows, terminating the loop at once). -/
def exp_sql_body (ext : ExtLibs) (cfg : Config) (cx_description : List ColDesc)
    (binary_path binary_rel_path : Option String) : Nat → List Row → String
  | _, [] => ""
  | 0, _ :: _ => ""
  | K + 1, r :: rs =>
      writeRowsCsv cfg
        (processBatch ext cfg cx_description binary_path binary_rel_path
          ((r :: rs).take (K + 1)))
        ++ exp_sql_body ext cfg cx_description binary_path binary_rel_path (K + 1) (rs.drop K)
  termination_by _k rows => rows.length

/-- Everything `exp_sql` writes to `file_handle` (source lines 195-240): the
header row (column names, written before the loop whenever `OUTPUT_HEADER`
is set, even for an empty result set) followed by the batched data rows. -/
def exp_sql_csv (ext : ExtLibs) (cfg : Config) (cx_description : List ColDesc)
    (binary_path binary_rel_path : Option String) (K : Nat) (allRows : List Row) : String :=
  (if cfg.OUTPUT_HEADER then csvRowLine cfg.LINETERM (cx_description.map ColDesc.name)
   else "")
    ++ exp_sql_body ext cfg cx_description binary_path binary_rel_path K allRows

/-- The binary directory's contents: an association list path -> bytes. -/
abbrev BlobFS := List (String × List Nat)

/-- `os.path.exists(write_path)` over the modelled directory. -/
def existsFile (fs : BlobFS) (path : String) : Bool :=
  (fs.lookup path).isSome

/-- The outcome of one iteration of the blob-writing loop of `exp_sql`
(source lines 216-225): the file was created, the write was skipped with a
stderr message, or an exception escaped (no `try` surrounds the `open`, so
an error aborts the export). -/
inductive WriteOutcome where
  | wrote (fs : BlobFS)
  | skipped (fs : BlobFS)
  | error (fs : BlobFS) (msg : String)
  deriving DecidableEq, Repr

/-- One iteration of `for hash, binary in binary_by_filename.items():`
(source lines 216-225).  `fsCheck` is the directory state observed by
`os.path.exists`; `fsOpen` the state at the moment `open(write_path,
mode='bx')` runs — they differ exactly when another writer created the file
in between.  Mode `x` is exclusive creation: it raises `FileExistsError`
rather than overwrite, and `exp_sql` has no handler for it.
`os.path.join` is modelled for the relative hash filenames the code
produces. -/
def writeBlobStep (fsCheck fsOpen : BlobFS) (binary_path filename : String)
    (data : List Nat) : WriteOutcome :=
  let write_path := binary_path ++ "/" ++ filename
  if existsFile fsCheck write_path then WriteOutcome.skipped fsOpen
  else if existsFile fsOpen write_path then WriteOutcome.error fsOpen "FileExistsError"
  else WriteOutcome.wrote (fsOpen ++ [(write_path, data)])

/-- Round-half-to-even of the fraction `n / d` (with `d ≠ 0`) to an
integer, the rounding Python's builtin `round` applies, computed purely on
integers: `f` is the floor and `r` the nonnegative remainder, and the tie
`2 * r = d` goes to the even neighbour. -/
def roundHalfEvenInt (n : ℤ) (d : ℕ) : ℤ :=
  let f := Int.fdiv n d
  let r := n - f * d
  if 2 * r < (d : ℤ) then f
  else if (d : ℤ) < 2 * r then f + 1
  else if f % 2 = 0 then f else f + 1

/-- Python `round(x, k)`: round at `k` decimal places (half to even). -/
def pyRound (x : ℚ) (k : Nat) : ℚ :=
  let m : ℕ := 10 ^ k
  mkRat (roundHalfEvenInt (x.num * m) x.den) m

/-- Exact division of rationals computed on numerators and denominators
(the sign of the divisor is moved into the numerator so `mkRat` receives a
natural denominator).  Only ever applied to a nonzero divisor. -/
def ratDiv (a b : ℚ) : ℚ :=
  if 0 ≤ b.num then mkRat (a.num * b.den) (a.den * b.num.toNat)
  else mkRat (-(a.num * b.den)) (a.den * (-b.num).toNat)

/-- The throughput computation closing `exp_sql` (source lines 244-248):
`duration_s = round(stop - start, 3)`, then `rate = round(rowcount /
duration_s, 2)`.  The division is plain `/`: when the rounded duration is
exactly zero Python raises `ZeroDivisionError`, modelled as the error
branch.  Timer values are modelled as exact rationals. -/
def throughputReport (rowcount : Nat) (elapsed : ℚ) : Except String (ℚ × ℚ) :=
  let duration_s := pyRound elapsed 3
  if duration_s = 0 then Except.error "ZeroDivisionError"
  else Except.ok (duration_s, pyRound (ratDiv (mkRat rowcount 1) duration_s) 2)

/-! ## Derived forms and helper lemmas -/

/-- The filename `transform_row_binary` computes for a nonempty payload:
hash plus sniffed extension, or the bare hash when the extension is
empty. -/
def blobFilename (ext : ExtLibs) (d : List Nat) : String :=
  let extension := detectFileExtension ext d
  let hash := ext.sha256hex d
  if extension ≠ "" then hash ++ extension else hash

/-- The value one binary-column cell is rewritten to: the empty string for
an empty/absent payload, otherwise the Blob Reference
`file://{binary_rel_path}/{filename}`. -/
def rewrittenCell (ext : ExtLibs) (binary_rel_path : String) (c : Cell) : Cell :=
  let data := cellData c
  if dataFalsy data then Cell.str ""
  else Cell.str ("file://" ++ binary_rel_path ++ "/" ++ blobFilename ext (data.getD []))

/-- What one inner-loop iteration stores back into `rows[ri]`: the ORIGINAL
row with only column `col` replaced. -/
def rowAfterCol (ext : ExtLibs) (binary_rel_path : String) (row : Row) (col : Nat) : Row :=
  row.set col (rewrittenCell ext binary_rel_path (cellAt row col))

/-- The row finally left in `rows[ri]` after the whole inner column loop:
each iteration rebuilds from the original `row`, so the final value is the
last iteration's rebuild. -/
def pyTransformedRow (ext : ExtLibs) (binary_rel_path : String) (cols : List Nat)
    (row : Row) : Row :=
  cols.foldl (fun _cur col => rowAfterCol ext binary_rel_path row col) row

theorem transformColsStep_fst (ext : ExtLibs) (brel : String) (row : Row)
    (acc : Row × BlobDict × List String) (col : Nat) :
    (transformColsStep ext brel row acc col).1 = rowAfterCol ext brel row col := by
  cases hb : dataFalsy (cellData (cellAt row col)) with
  | true => simp only [transformColsStep, rowAfterCol, rewrittenCell, hb, if_true]
  | false =>
      simp only [transformColsStep, rowAfterCol, rewrittenCell, blobFilename, hb,
        Bool.false_eq_true, if_false]

theorem foldl_transformColsStep_fst (ext : ExtLibs) (brel : String) (row : Row)
    (cols : List Nat) :
    ∀ acc : Row × BlobDict × List String,
      (cols.foldl (transformColsStep ext brel row) acc).1
        = cols.foldl (fun _cur col => rowAfterCol ext brel row col) acc.1 := by
  induction cols with
  | nil => intro acc; rfl
  | cons col rest ih =>
      intro acc
      simp only [List.foldl_cons]
      rw [ih, transformColsStep_fst]

/-- Replacing the accumulator wholesale at every step means the fold is the
image of the last element (for a nonempty list). -/
theorem foldl_replace_last {α β : Type} (f : α → β) :
    ∀ (l : List α) (b : β) (h : l ≠ []), l.foldl (fun _cur x => f x) b = f (l.getLast h) := by
  intro l
  induction l with
  | nil => intro b h; exact absurd rfl h
  | cons x rest ih =>
      intro b h
      cases rest with
      | nil => rfl
      | cons y t =>
          rw [List.foldl_cons, ih (f x) (by simp)]
          rw [List.getLast_cons (by simp : y :: t ≠ [])]

theorem pyTransformedRow_of_ne_nil (ext : ExtLibs) (brel : String) (cols : List Nat)
    (row : Row) (h : cols ≠ []) :
    pyTransformedRow ext brel cols row = rowAfterCol ext brel row (cols.getLast h) :=
  foldl_replace_last _ cols row h

theorem pyTransformedRow_length (ext : ExtLibs) (brel : String) (cols : List Nat)
    (row : Row) : (pyTransformedRow ext brel cols row).length = row.length := by
  by_cases h : cols = []
  · subst h; rfl
  · rw [pyTransformedRow_of_ne_nil ext brel cols row h, rowAfterCol, List.length_set]

/-- A column the inner loop never touches keeps its original cell. -/
theorem pyTransformedRow_cellAt_not_mem (ext : ExtLibs) (brel : String) (cols : List Nat)
    (row : Row) (c : Nat) (hc : c ∉ cols) :
    cellAt (pyTransformedRow ext brel cols row) c = cellAt row c := by
  by_cases h : cols = []
  · subst h; rfl
  · rw [pyTransformedRow_of_ne_nil ext brel cols row h, rowAfterCol]
    have hne : cols.getLast h ≠ c := fun he => hc (he ▸ List.getLast_mem h)
    simp only [cellAt, List.getD_eq_getElem?_getD]
    rw [List.getElem?_set_ne hne]

/-- The row component of `transform_row_binary`: with binary columns
present it is a per-row map. -/
theorem transform_row_binary_fst (ext : ExtLibs) (desc : List ColDesc) (brel : String)
    (rows : List Row) :
    (transform_row_binary ext desc brel rows).1
      = if binaryColumnIdxs desc rows = [] then rows
        else rows.map (pyTransformedRow ext brel (binaryColumnIdxs desc rows)) := by
  simp only [transform_row_binary]
  by_cases h : binaryColumnIdxs desc rows = []
  · simp [h]
  · simp only [h, if_neg h, if_false]
    suffices hgen : ∀ (rs : List Row) (done : List Row) (d : BlobDict) (w : List String),
        ((rs.foldl (fun acc row =>
            let res := (binaryColumnIdxs desc rows).foldl
              (transformColsStep ext brel row) (row, acc.2.1, acc.2.2)
            (acc.1 ++ [res.1], res.2.1, res.2.2)) (done, d, w)).1
          = done ++ rs.map (pyTransformedRow ext brel (binaryColumnIdxs desc rows))) by
      have := hgen rows [] [] []
      simpa using this
    intro rs
    induction rs with
    | nil => intro done d w; simp
    | cons r rest ih =>
        intro done d w
        simp only [List.foldl_cons, List.map_cons]
        rw [ih]
        rw [foldl_transformColsStep_fst]
        simp [pyTransformedRow]

/-- Per-row form of the NULL substitution step. -/
def nullSubstRowFn (cfg : Config) (row : Row) : Row :=
  if truthyOptStr cfg.NULL_AS then nullSubstRow (cfg.NULL_AS.getD "") row else row

theorem nullSubstRows_map (cfg : Config) (rows : List Row) :
    nullSubstRows cfg rows = rows.map (nullSubstRowFn cfg) := by
  by_cases h : truthyOptStr cfg.NULL_AS = true
  · simp only [nullSubstRows]
    rw [if_pos h]
    exact List.map_congr_left fun a _ => by simp [nullSubstRowFn, h]
  · simp only [nullSubstRows]
    rw [if_neg h]
    have hmap : rows.map (nullSubstRowFn cfg) = rows.map id :=
      List.map_congr_left fun a _ => by simp [nullSubstRowFn, h]
    rw [hmap, List.map_id]

/-- The whole per-row pipeline of one `exp_sql` loop iteration as a single
function: binary rewrite (when enabled and binary columns exist) followed by
NULL substitution. -/
def processRowFn (ext : ExtLibs) (cfg : Config) (desc : List ColDesc)
    (binary_path binary_rel_path : Option String) (row : Row) : Row :=
  let bc := binaryColumnIdxs desc []
  let row2 :=
    if truthyOptStr binary_path && truthyOptStr binary_rel_path then
      if bc = [] then row else pyTransformedRow ext (binary_rel_path.getD "") bc row
    else row
  nullSubstRowFn cfg row2

theorem processBatch_map (ext : ExtLibs) (cfg : Config) (desc : List ColDesc)
    (bp br : Option String) (rows : List Row) :
    processBatch ext cfg desc bp br rows
      = rows.map (processRowFn ext cfg desc bp br) := by
  have hbc : binaryColumnIdxs desc rows = binaryColumnIdxs desc [] := rfl
  by_cases hb : (truthyOptStr bp && truthyOptStr br) = true
  · by_cases hc : binaryColumnIdxs desc [] = []
    · simp only [processBatch]
      rw [if_pos hb, transform_row_binary_fst, hbc, if_pos hc, nullSubstRows_map]
      exact List.map_congr_left fun a _ => by simp [processRowFn, hb, hc]
    · simp only [processBatch]
      rw [if_pos hb, transform_row_binary_fst, hbc, if_neg hc, nullSubstRows_map,
        List.map_map]
      exact List.map_congr_left fun a _ => by
        simp [processRowFn, hb, hc, Function.comp]
  · simp only [processBatch]
    rw [if_neg hb, nullSubstRows_map]
    exact List.map_congr_left fun a _ => by simp [processRowFn, hb]

theorem processBatch_append (ext : ExtLibs) (cfg : Config) (desc : List ColDesc)
    (bp br : Option String) (l1 l2 : List Row) :
    processBatch ext cfg desc bp br (l1 ++ l2)
      = processBatch ext cfg desc bp br l1 ++ processBatch ext cfg desc bp br l2 := by
  simp [processBatch_map]

theorem writeRowsCsv_append (cfg : Config) (l1 l2 : List Row) :
    writeRowsCsv cfg (l1 ++ l2) = writeRowsCsv cfg l1 ++ writeRowsCsv cfg l2 := by
  induction l1 with
  | nil => simp [writeRowsCsv]
  | cons r rs ih => simp [writeRowsCsv, ih, String.append_assoc]

/-- The data stream the fetch loop produces does not depend on the positive
fetch size: it is the per-row pipeline mapped over the whole result set. -/
theorem exp_sql_body_flatten (ext : ExtLibs) (cfg : Config) (desc : List ColDesc)
    (bp br : Option String) :
    ∀ (n : Nat) (rows : List Row), rows.length ≤ n → ∀ K : Nat,
      exp_sql_body ext cfg desc bp br (K + 1) rows
        = writeRowsCsv cfg (processBatch ext cfg desc bp br rows) := by
  intro n
  induction n with
  | zero =>
      intro rows hlen K
      have hnil : rows = [] := List.eq_nil_of_length_eq_zero (Nat.le_zero.mp hlen)
      subst hnil
      simp [exp_sql_body, processBatch_map, writeRowsCsv]
  | succ n ih =>
      intro rows hlen K
      cases rows with
      | nil => simp [exp_sql_body, processBatch_map, writeRowsCsv]
      | cons r rs =>
          have hrs : rs.length ≤ n := by
            simp only [List.length_cons] at hlen
            omega
          have hd : (rs.drop K).length ≤ n := by
            simp only [List.length_drop]
            omega
          rw [show exp_sql_body ext cfg desc bp br (K + 1) (r :: rs)
              = writeRowsCsv cfg (processBatch ext cfg desc bp br ((r :: rs).take (K + 1)))
                ++ exp_sql_body ext cfg desc bp br (K + 1) (rs.drop K) from by
            simp [exp_sql_body]]
          rw [ih (rs.drop K) hd K, ← writeRowsCsv_append, ← processBatch_append]
          rw [List.take_succ_cons]
          rw [show r :: rs.take K ++ rs.drop K = r :: rs from by
            rw [List.cons_append, List.take_append_drop]]

theorem mem_binaryColsAux (dflt : ColDesc) (j : Nat) :
    ∀ (xs : List ColDesc) (i : Nat),
      j ∈ binaryColsAux i xs
        ↔ ∃ k, k < xs.length ∧ j = i + k
            ∧ isBinaryDriver ((xs.getD k dflt).driver_type) = true := by
  intro xs
  induction xs with
  | nil => intro i; simp [binaryColsAux]
  | cons x t ih =>
      intro i
      simp only [binaryColsAux]
      by_cases hx : isBinaryDriver x.driver_type = true
      · rw [if_pos hx]
        simp only [List.mem_cons, ih (i + 1)]
        constructor
        · rintro (rfl | ⟨k, hk, rfl, hbin⟩)
          · exact ⟨0, by simp, by omega, by simpa using hx⟩
          · exact ⟨k + 1, by simp only [List.length_cons]; omega, by omega,
              by simpa using hbin⟩
        · rintro ⟨k, hk, rfl, hbin⟩
          cases k with
          | zero => left; omega
          | succ k =>
              right
              exact ⟨k, by simp only [List.length_cons] at hk; omega, by omega,
                by simpa using hbin⟩
      · rw [if_neg hx]
        rw [ih (i + 1)]
        constructor
        · rintro ⟨k, hk, rfl, hbin⟩
          exact ⟨k + 1, by simp only [List.length_cons]; omega, by omega,
            by simpa using hbin⟩
        · rintro ⟨k, hk, rfl, hbin⟩
          cases k with
          | zero => exact absurd (by simpa using hbin) hx
          | succ k =>
              exact ⟨k, by simp only [List.length_cons] at hk; omega, by omega,
                by simpa using hbin⟩

theorem binaryColsAux_eq_nil (xs : List ColDesc)
    (h : ∀ d ∈ xs, isBinaryDriver d.driver_type = false) :
    ∀ i, binaryColsAux i xs = [] := by
  induction xs with
  | nil => intro i; rfl
  | cons x t ih =>
      intro i
      simp only [binaryColsAux]
      rw [if_neg (by simp [h x (by simp)])]
      exact ih (fun d hd => h d (by simp [hd])) (i + 1)

theorem cellAt_of_le (row : Row) (j : Nat) (h : row.length ≤ j) :
    cellAt row j = Cell.none := by
  simp [cellAt, List.getD_eq_getElem?_getD, List.getElem?_eq_none h]

theorem cellAt_lt_mem (row : Row) (c : Nat) (h : c < row.length) : cellAt row c ∈ row := by
  simp only [cellAt, List.getD_eq_getElem?_getD, List.getElem?_eq_getElem h,
    Option.getD_some]
  exact List.getElem_mem h

theorem cellAt_map_lt (row : Row) (g : Cell → Cell) (c : Nat) (h : c < row.length) :
    cellAt (row.map g) c = g (cellAt row c) := by
  simp [cellAt, List.getD_eq_getElem?_getD, List.getElem?_map,
    List.getElem?_eq_getElem h]

theorem getD_map_lt (row : Row) (f : Cell → String) (c : Nat) (h : c < row.length) :
    (row.map f).getD c "" = f (cellAt row c) := by
  simp [cellAt, List.getD_eq_getElem?_getD, List.getElem?_map,
    List.getElem?_eq_getElem h]

/-- A cell the substitution step does not recognize as the NULL sentinel is
left untouched by it. -/
theorem nullSubstRowFn_cellAt_ne (cfg : Config) (row : Row) (j : Nat)
    (h : cellAt row j ≠ Cell.none) :
    cellAt (nullSubstRowFn cfg row) j = cellAt row j := by
  have hj : j < row.length := by
    by_contra hge
    exact h (cellAt_of_le row j (by omega))
  simp only [nullSubstRowFn]
  by_cases ht : truthyOptStr cfg.NULL_AS = true
  · rw [if_pos ht]
    simp only [nullSubstRow]
    by_cases hm : Cell.none ∈ row
    · rw [if_pos hm, cellAt_map_lt row _ j hj]
      simp [h]
    · rw [if_neg hm]
  · rw [if_neg ht]

/-- The serialized field of a NULL-sentinel cell after the substitution
step: the configured marker when one is set, the empty field otherwise. -/
theorem nullSubstRowFn_field_of_none (cfg : Config) (row : Row) (c : Nat)
    (hlt : c < row.length) (hnone : cellAt row c = Cell.none) :
    ((nullSubstRowFn cfg row).map cellToStr).getD c "" = cfg.NULL_AS.getD "" := by
  simp only [nullSubstRowFn]
  by_cases ht : truthyOptStr cfg.NULL_AS = true
  · rw [if_pos ht]
    simp only [nullSubstRow]
    have hmem : Cell.none ∈ row := hnone ▸ cellAt_lt_mem row c hlt
    rw [if_pos hmem]
    rw [getD_map_lt _ cellToStr c (by simpa using hlt)]
    rw [cellAt_map_lt row _ c hlt, hnone]
    simp [cellToStr]
  · rw [if_neg ht]
    rw [getD_map_lt row cellToStr c hlt, hnone]
    cases hna : cfg.NULL_AS with
    | none => simp [cellToStr]
    | some s =>
        have hs : s = "" := by
          by_contra hne
          exact ht (by simp [truthyOptStr, hna, hne])
        simp [cellToStr, hna, hs]

theorem writeRowsCsv_flag_congr (n : Option String) (t : String) (b1 b2 : Bool)
    (rows : List Row) :
    writeRowsCsv (Config.mk n b1 t) rows = writeRowsCsv (Config.mk n b2 t) rows := by
  induction rows with
  | nil => rfl
  | cons r rs ih =>
      simp only [writeRowsCsv]
      rw [ih]

/-- The data stream does not depend on the header flag: the flag is read
once, before the loop, only to emit the header line. -/
theorem exp_sql_body_flag_congr (ext : ExtLibs) (n : Option String) (t : String)
    (b1 b2 : Bool) (desc : List ColDesc) (bp br : Option String) (K : Nat)
    (rows : List Row) :
    exp_sql_body ext (Config.mk n b1 t) desc bp br K rows
      = exp_sql_body ext (Config.mk n b2 t) desc bp br K rows := by
  cases K with
  | zero => cases rows <;> simp [exp_sql_body]
  | succ K =>
      rw [exp_sql_body_flatten ext (Config.mk n b1 t) desc bp br rows.length rows le_rfl K,
        exp_sql_body_flatten ext (Config.mk n b2 t) desc bp br rows.length rows le_rfl K]
      rw [show processBatch ext (Config.mk n b2 t) desc bp br rows
          = processBatch ext (Config.mk n b1 t) desc bp br rows from rfl]
      exact writeRowsCsv_flag_congr n t b1 b2 _

/-- Division of zero, in the numerator-denominator form of `ratDiv`. -/
theorem ratDiv_zero_left (b : ℚ) : ratDiv 0 b = 0 := by
  simp [ratDiv]

/-! ## Concrete instances used by evaluations and witnesses -/

/-- A concrete instance of the external libraries, used only to evaluate the
model at concrete inputs (the general theorems quantify over every
instance): a stand-in digest, a sniffer that knows two byte patterns, and an
extension table that knows `image/png`. -/
def sampleLibs : ExtLibs where
  sha256hex := fun b => "h" ++ toString b.length
  magicFromBuffer := fun b =>
    if b = [71] then "image/png" else if b = [1] then "application/x-test" else ""
  guessExtension := fun m => if m = "image/png" then ".png" else ""

/-- Two binary columns. -/
def sampleBinDesc : List ColDesc :=
  [ColDesc.mk "B1" DriverType.BINARY, ColDesc.mk "B2" DriverType.BINARY]

/-- One ordinary text column. -/
def sampleTextDesc : List ColDesc := [ColDesc.mk "A" DriverType.STRING]

/-! ## The claims -/

/-- C1: the claim states that when two binary-column cells of a batch hold
identical bytes, the blob mapping has exactly one entry and BOTH transformed
cells hold the identical `file://` Blob Reference.  The code violates the
second half: `row` in `for ri, row in enumerate(rows)` stays bound to the
original tuple, and each column rewrite rebuilds `rows[ri]` from it
(`l = list(row)`), so with two binary columns only the last column's rewrite
survives.  Evaluating the embedding on one row whose two binary cells both
hold bytes `[7]`: the mapping does get exactly one entry, but the first cell
keeps its raw bytes instead of the Blob Reference. -/
theorem transform_row_binary_two_binary_columns_eval :
    transform_row_binary sampleLibs sampleBinDesc "bin" [[Cell.bytes [7], Cell.bytes [7]]]
      = ([[Cell.bytes [7], Cell.str "file://bin/h1"]], [("h1", [7])], []) := by
  decide

/-- C2 counterexample: the claim states that a file appearing between the
`os.path.exists` check and the write is treated as a non-fatal skip.  In the
code the write is `open(write_path, mode='bx')` — exclusive creation — with
no handler, so the race raises `FileExistsError` and aborts the export
instead of skipping: here the file is absent at check time and present at
open time, and the outcome is the error, not a skip. -/
theorem writeBlobStep_race_raises_eval :
    writeBlobStep [] [("t/f1", [1])] "t" "f1" [9]
      = WriteOutcome.error [("t/f1", [1])] "FileExistsError" := by decide

/-- C2 (amended): a blob file that already exists when `os.path.exists`
runs is skipped, without error and without touching the directory state; a
file that appears only between the check and the exclusive-create `open`
makes the open raise `FileExistsError` (uncaught, so the export aborts) and
still never overwrites; only a file absent at both moments is written, as a
new directory entry. -/
theorem writeBlobStep_check_and_exclusive_create :
    ∀ (fsCheck fsOpen : BlobFS) (binary_path filename : String) (data : List Nat),
      (existsFile fsCheck (binary_path ++ "/" ++ filename) = true →
        writeBlobStep fsCheck fsOpen binary_path filename data
          = WriteOutcome.skipped fsOpen)
      ∧ (existsFile fsCheck (binary_path ++ "/" ++ filename) = false →
          existsFile fsOpen (binary_path ++ "/" ++ filename) = true →
          writeBlobStep fsCheck fsOpen binary_path filename data
            = WriteOutcome.error fsOpen "FileExistsError")
      ∧ (existsFile fsCheck (binary_path ++ "/" ++ filename) = false →
          existsFile fsOpen (binary_path ++ "/" ++ filename) = false →
          writeBlobStep fsCheck fsOpen binary_path filename data
            = WriteOutcome.wrote (fsOpen ++ [(binary_path ++ "/" ++ filename, data)])) := by
  intro fsCheck fsOpen binary_path filename data
  refine ⟨?_, ?_, ?_⟩
  · intro h1; simp [writeBlobStep, h1]
  · intro h1 h2; simp [writeBlobStep, h1, h2]
  · intro h1 h2; simp [writeBlobStep, h1, h2]

/-- C2 witness: the amended statement at concrete directory states — a
pre-existing file is skipped with the directory unchanged, and a fresh
filename is written. -/
theorem writeBlobStep_check_and_exclusive_create_witness :
    writeBlobStep [("d/f", [1])] [("d/f", [1])] "d" "f" [9]
        = WriteOutcome.skipped [("d/f", [1])]
    ∧ writeBlobStep [] [] "d" "f" [9] = WriteOutcome.wrote [("d/f", [9])] :=
  ⟨(writeBlobStep_check_and_exclusive_create [("d/f", [1])] [("d/f", [1])] "d" "f" [9]).1
      (by decide),
    (writeBlobStep_check_and_exclusive_create [] [] "d" "f" [9]).2.2 (by decide) (by decide)⟩

/-- C3: for every positive fetch size `K`, exporting the same rows with
fetch size `K` and with `K + 1` writes byte-identical text to the data
stream (header plus data rows): the loop output flattens to the per-row
pipeline mapped over the whole result set, independently of the batch
boundaries. -/
theorem exp_sql_csv_fetch_size_invariant :
    ∀ (ext : ExtLibs) (cfg : Config) (desc : List ColDesc) (bp br : Option String)
      (K : Nat) (rows : List Row), 0 < K →
      exp_sql_csv ext cfg desc bp br K rows = exp_sql_csv ext cfg desc bp br (K + 1) rows := by
  intro ext cfg desc bp br K rows hK
  cases K with
  | zero => exact absurd hK (lt_irrefl 0)
  | succ K =>
      simp only [exp_sql_csv]
      congr 1
      rw [exp_sql_body_flatten ext cfg desc bp br rows.length rows le_rfl K,
        exp_sql_body_flatten ext cfg desc bp br rows.length rows le_rfl (K + 1)]

/-- C3 witness: three rows exported with fetch sizes 1 and 2. -/
theorem exp_sql_csv_fetch_size_invariant_witness :
    0 < 1
    ∧ exp_sql_csv sampleLibs (Config.mk Option.none true "\n") sampleTextDesc

        Option.none Option.none 1 [[Cell.str "x"], [Cell.str "y"], [Cell.str "z"]]
      = exp_sql_csv sampleLibs (Config.mk Option.none true "\n") sampleTextDesc
        Option.none Option.none 2 [[Cell.str "x"], [Cell.str "y"], [Cell.str "z"]] :=
  ⟨Nat.one_pos,
    exp_sql_csv_fetch_size_invariant sampleLibs (Config.mk Option.none true "\n")
      sampleTextDesc Option.none Option.none 1
      [[Cell.str "x"], [Cell.str "y"], [Cell.str "z"]] Nat.one_pos⟩

/-- C4: a NULL-sentinel cell in a non-binary column serializes, after the
per-batch pipeline, to the configured marker when one is set and to the
empty field otherwise (`cfg.NULL_AS.getD ""` covers both, since an empty
configured marker is falsy and leaves the sentinel to serialize as the empty
field); and the substitution step never changes a cell that is not the
sentinel. -/
theorem exp_sql_null_marker_substitution :
    ∀ (ext : ExtLibs) (cfg : Config) (desc : List ColDesc) (bp br : Option String)
      (batch : List Row) (r c : Nat),
      r < batch.length →
      c < (batch.getD r []).length →
      c ∉ binaryColumnIdxs desc batch →
      cellAt (batch.getD r []) c = Cell.none →
      ((((processBatch ext cfg desc bp br batch).getD r []).map cellToStr).getD c ""
          = cfg.NULL_AS.getD "")
      ∧ ∀ (rows : List Row) (i j : Nat),
          cellAt (rows.getD i []) j ≠ Cell.none →
          cellAt ((nullSubstRows cfg rows).getD i []) j = cellAt (rows.getD i []) j := by
  intro ext cfg desc bp br batch r c hr hcl hnb hnone
  constructor
  · rw [processBatch_map]
    rw [show (batch.map (processRowFn ext cfg desc bp br)).getD r []
        = processRowFn ext cfg desc bp br (batch.getD r []) from by
      simp [List.getD_eq_getElem?_getD, List.getElem?_map, List.getElem?_eq_getElem hr]]
    simp only [processRowFn]
    have hnb0 : c ∉ binaryColumnIdxs desc [] := hnb
    by_cases hb : (truthyOptStr bp && truthyOptStr br) = true
    · rw [if_pos hb]
      by_cases hc0 : binaryColumnIdxs desc [] = []
      · rw [if_pos hc0]
        exact nullSubstRowFn_field_of_none cfg _ c hcl hnone
      · rw [if_neg hc0]
        refine nullSubstRowFn_field_of_none cfg _ c ?_ ?_
        · rw [pyTransformedRow_length]; exact hcl
        · rw [pyTransformedRow_cellAt_not_mem _ _ _ _ c hnb0]; exact hnone
    · rw [if_neg hb]
      exact nullSubstRowFn_field_of_none cfg _ c hcl hnone
  · intro rows i j h
    rw [nullSubstRows_map]
    by_cases hi : i < rows.length
    · rw [show (rows.map (nullSubstRowFn cfg)).getD i []
          = nullSubstRowFn cfg (rows.getD i []) from by
        simp [List.getD_eq_getElem?_getD, List.getElem?_map, List.getElem?_eq_getElem hi]]
      exact nullSubstRowFn_cellAt_ne cfg _ j h
    · have hge : rows.length ≤ i := by omega
      have h2 : rows.getD i [] = ([] : Row) := by
        simp [List.getD_eq_getElem?_getD, List.getElem?_eq_none hge]
      rw [h2] at h
      exact absurd rfl h

/-- C4 witness: one text column, one row holding the sentinel, marker
`NULL` configured — the serialized field is `NULL`. -/
theorem exp_sql_null_marker_substitution_witness :
    (((processBatch sampleLibs (Config.mk (Option.some "NULL") true "\n")
          sampleTextDesc Option.none Option.none [[Cell.none]]).getD 0 []).map
        cellToStr).getD 0 "" = "NULL" := by
  have h := exp_sql_null_marker_substitution sampleLibs
    (Config.mk (Option.some "NULL") true "\n") sampleTextDesc Option.none Option.none
    [[Cell.none]] 0 0 (by decide) (by decide) (by decide) (by decide)
  exact h.1

/-- C5 counterexample: the claim states the throughput computation never
faults on division by zero, even for durations that round to zero.  The
code has no guard: `rate = round(rowcount / duration_s, 2)` divides by the
rounded duration, and an elapsed time of 1/10000 s rounds (at 3 decimal
places) to exactly 0, so the division raises `ZeroDivisionError`. -/
theorem throughputReport_zero_rounded_duration_faults_eval :
    throughputReport 1000 (mkRat 1 10000) = Except.error "ZeroDivisionError" := by
  simp only [throughputReport]
  rw [if_pos (show pyRound (mkRat 1 10000) 3 = 0 by decide)]

/-- C5 (amended): the elapsed duration is rounded to 3 decimal places and
the rate to 2, and 0 rows yield rate 0 — but only when the rounded duration
is nonzero; when it rounds to zero (any elapsed time below half a
millisecond) the division faults with `ZeroDivisionError` instead. -/
theorem throughputReport_spec :
    ∀ (rowcount : Nat) (elapsed : ℚ),
      (pyRound elapsed 3 = 0 →
        throughputReport rowcount elapsed = Except.error "ZeroDivisionError")
      ∧ (pyRound elapsed 3 ≠ 0 →
          throughputReport rowcount elapsed
            = Except.ok (pyRound elapsed 3,
                pyRound (ratDiv (mkRat rowcount 1) (pyRound elapsed 3)) 2))
      ∧ (pyRound elapsed 3 ≠ 0 → rowcount = 0 →
          throughputReport rowcount elapsed = Except.ok (pyRound elapsed 3, 0)) := by
  intro rowcount elapsed
  refine ⟨?_, ?_, ?_⟩
  · intro h; simp only [throughputReport]; rw [if_pos h]
  · intro h; simp only [throughputReport]; rw [if_neg h]
  · intro h h0
    subst h0
    simp only [throughputReport]
    rw [if_neg h]
    rw [show mkRat ((0 : Nat) : ℤ) 1 = (0 : ℚ) from by decide]
    rw [ratDiv_zero_left]
    rw [show pyRound 0 2 = 0 from by decide]

/-- C5 witness: 1000 rows in 2 seconds report duration 2 and rate 500. -/
theorem throughputReport_spec_witness :
    throughputReport 1000 2 = Except.ok (2, 500) :=
  ((throughputReport_spec 1000 2).2.1 (by decide)).trans
    (congrArg Except.ok (by decide))

/-- C6: `detectFileExtension` returns the empty string when no MIME type is
sniffed from the content; the `mimetypes` extension verbatim (which carries
its leading dot) when one is known; otherwise a dot followed by the last
`/`-separated component of the MIME string (its subtype token); and the
result depends on the bytes only through the sniffed MIME type — no
filename is ever consulted (the function has no filename input). -/
theorem detectFileExtension_spec :
    ∀ (ext : ExtLibs) (byts : List Nat),
      (ext.magicFromBuffer byts = "" → detectFileExtension ext byts = "")
      ∧ (ext.magicFromBuffer byts ≠ "" →
          ext.guessExtension (ext.magicFromBuffer byts) ≠ "" →
          detectFileExtension ext byts = ext.guessExtension (ext.magicFromBuffer byts))
      ∧ (ext.magicFromBuffer byts ≠ "" →
          ext.guessExtension (ext.magicFromBuffer byts) = "" →
          detectFileExtension ext byts
            = "." ++ ((pySplit '/' (ext.magicFromBuffer byts)).getLastD ""))
      ∧ ∀ byts2 : List Nat, ext.magicFromBuffer byts2 = ext.magicFromBuffer byts →
          detectFileExtension ext byts2 = detectFileExtension ext byts := by
  intro ext byts
  refine ⟨?_, ?_, ?_, ?_⟩
  · intro h; simp [detectFileExtension, h]
  · intro h1 h2; simp [detectFileExtension, h1, h2]
  · intro h1 h2; simp [detectFileExtension, h1, h2]
  · intro byts2 he; simp [detectFileExtension, he]

/-- C6 witness: the three shapes at concrete bytes under `sampleLibs`: a
known mapping gives `.png`, a sniffed type without mapping gives its
subtype token `.x-test`, and no sniffed type gives the empty string. -/
theorem detectFileExtension_spec_witness :
    detectFileExtension sampleLibs [71] = ".png"
    ∧ detectFileExtension sampleLibs [1] = ".x-test"
    ∧ detectFileExtension sampleLibs [9] = "" :=
  ⟨((detectFileExtension_spec sampleLibs [71]).2.1 (by decide) (by decide)).trans
      (by decide),
    ((detectFileExtension_spec sampleLibs [1]).2.2.1 (by decide) (by decide)).trans
      (by decide),
    (detectFileExtension_spec sampleLibs [9]).1 (by decide)⟩

/-- C7: `binaryColumnIdxs` never looks at the rows — the same descriptor
list yields the same index list for any two batches — and membership is
characterized purely by the descriptor's driver type being one of the three
binary constants. -/
theorem binaryColumnIdxs_row_independent :
    ∀ (desc : List ColDesc) (rows1 rows2 : List Row),
      binaryColumnIdxs desc rows1 = binaryColumnIdxs desc rows2
      ∧ ∀ j : Nat,
          j ∈ binaryColumnIdxs desc rows1
            ↔ j < desc.length
              ∧ isBinaryDriver ((desc.getD j (ColDesc.mk "" DriverType.STRING)).driver_type)
                  = true := by
  intro desc rows1 rows2
  refine ⟨rfl, ?_⟩
  intro j
  rw [show binaryColumnIdxs desc rows1 = binaryColsAux 0 desc from rfl,
    mem_binaryColsAux (ColDesc.mk "" DriverType.STRING) j desc 0]
  constructor
  · rintro ⟨k, hk, rfl, hbin⟩
    exact ⟨by omega, by simpa using hbin⟩
  · rintro ⟨hj, hbin⟩
    exact ⟨j, hj, by omega, by simpa using hbin⟩

/-- C8: with no binary/LOB column among the descriptors, the rewriter
returns the very same row list (the source's early `return rows,
binary_by_filename`) together with an empty blob mapping (and no
warnings). -/
theorem transform_row_binary_no_binary_fast_path :
    ∀ (ext : ExtLibs) (desc : List ColDesc) (brel : String) (rows : List Row),
      (∀ d ∈ desc, isBinaryDriver d.driver_type = false) →
      transform_row_binary ext desc brel rows = (rows, [], []) := by
  intro ext desc brel rows h
  have hnil : binaryColumnIdxs desc rows = [] := binaryColsAux_eq_nil desc h 0
  simp [transform_row_binary, hnil]

/-- C8 witness: one text column, one row. -/
theorem transform_row_binary_no_binary_fast_path_witness :
    (∀ d ∈ sampleTextDesc, isBinaryDriver d.driver_type = false)
    ∧ transform_row_binary sampleLibs sampleTextDesc "bin" [[Cell.str "x"]]
        = ([[Cell.str "x"]], [], []) :=
  ⟨by decide,
    transform_row_binary_no_binary_fast_path sampleLibs sampleTextDesc "bin"
      [[Cell.str "x"]] (by decide)⟩

/-- C9: with the header flag set, `exp_sql` writes exactly one header line
(the column names in descriptor order) before all data output — the whole
output is that line prepended to the flag-off output — and it writes the
header even for an empty result set; with the flag off and an empty result
set nothing at all is written (no header line ever appears, since the
flag-off output is exactly the data stream). -/
theorem exp_sql_header_emission :
    ∀ (ext : ExtLibs) (nullAs : Option String) (term : String) (desc : List ColDesc)
      (bp br : Option String) (K : Nat) (rows : List Row),
      exp_sql_csv ext (Config.mk nullAs true term) desc bp br K rows
          = csvRowLine term (desc.map ColDesc.name)
            ++ exp_sql_csv ext (Config.mk nullAs false term) desc bp br K rows
      ∧ exp_sql_csv ext (Config.mk nullAs true term) desc bp br K ([] : List Row)
          = csvRowLine term (desc.map ColDesc.name)
      ∧ exp_sql_csv ext (Config.mk nullAs false term) desc bp br K ([] : List Row) = "" := by
  intro ext nullAs term desc bp br K rows
  refine ⟨?_, ?_, ?_⟩
  · simp only [exp_sql_csv]
    simp
    rw [exp_sql_body_flag_congr ext nullAs term true false desc bp br K rows]
  · cases K <;> simp [exp_sql_csv, exp_sql_body]
  · cases K <;> simp [exp_sql_csv, exp_sql_body]

/-- C10: the claim states an empty/NULL binary cell is replaced with the
empty string (with a warning) and that, the rewrite running before NULL
substitution, the configured marker is never applied to a binary column.
The warning is emitted, but the same rebuild-from-the-original-row slip as
in C1 loses the replacement whenever a later binary column follows: with
descriptors `[BINARY, BINARY]` and row `(None, bytes [7])`, column 0 is
first blanked, then column 1's rewrite rebuilds the row from the original,
so the final row still holds `None` in column 0 — and the NULL substitution
then turns exactly that binary cell into the configured marker. -/
theorem transform_row_binary_empty_payload_eval :
    transform_row_binary sampleLibs sampleBinDesc "bin" [[Cell.none, Cell.bytes [7]]]
      = ([[Cell.none, Cell.str "file://bin/h1"]], [("h1", [7])],
          ["binary data is empty, skipping column 0 in row: 0"])
    ∧ nullSubstRows (Config.mk (Option.some "NULL") true "\n")
        (transform_row_binary sampleLibs sampleBinDesc "bin"
          [[Cell.none, Cell.bytes [7]]]).1
      = [[Cell.str "NULL", Cell.str "file://bin/h1"]] :=
  ⟨by decide, by decide⟩

end CsvExp
